import Mathlib

/-!
Verification of the OSDS appointment-server scheduling engine.

The JavaScript sources are shallowly embedded: timestamps are modelled as
natural numbers of milliseconds on a single timeline (the server's local
timezone is taken as UTC+0, so the `getHours`/`getUTCHours` families of
accessors coincide), the Prisma-backed appointment table is a
`List Appointment`, the busy-day table a `List Nat` of (normalized) dates,
and every fallible service returns `Except String`.  Store failures that
originate outside the embedded code (a thrown Prisma error) are modelled by
an explicit oracle `updErr : Nat → Option String` saying, per appointment
id, whether the store update throws and with which message.
-/

namespace OSDS

/-! ## Time model: JavaScript `Date` arithmetic over milliseconds -/

def msPerMinute : Nat := 60000

def msPerHour : Nat := 3600000

def msPerDay : Nat := 86400000

/-- Calendar-day number of a timestamp (days since the epoch). -/
def dayIndex (t : Nat) : Nat := t / msPerDay

/-- JS `setHours(0,0,0,0)` / `Date.UTC(y,m,d)`: midnight of `t`'s calendar day. -/
def dateOnly (t : Nat) : Nat := dayIndex t * msPerDay

/-- Milliseconds elapsed since midnight of `t`'s calendar day. -/
def timeOfDay (t : Nat) : Nat := t % msPerDay

/-- JS `getDay()`: weekday, Sunday = 0 .. Saturday = 6.  The epoch day
(1970-01-01) is a Thursday, hence the offset 4. -/
def getDay (t : Nat) : Nat := (4 + dayIndex t) % 7

/-- JS `getHours()`. -/
def getHours (t : Nat) : Nat := timeOfDay t / msPerHour

/-- JS `getMinutes()`. -/
def getMinutes (t : Nat) : Nat := (timeOfDay t % msPerHour) / msPerMinute

/-- JS `d.setHours(h, m, 0, 0)`: same calendar day as `t`, time of day `h:m`. -/
def atHM (t h m : Nat) : Nat := dateOnly t + h * msPerHour + m * msPerMinute

/-- JS `String.prototype.trim()` (restricted to the common whitespace
characters), implemented over the character list so that it reduces in the
kernel. -/
def isSpaceChar (c : Char) : Bool := c == ' ' || c == '\t' || c == '\n' || c == '\r'

def jsTrim (s : String) : String :=
  ⟨((s.data.dropWhile isSpaceChar).reverse.dropWhile isSpaceChar).reverse⟩

/-! ## Data model

Embeds the Prisma `appointment` row (migrations in the repository): the
create call never writes an `email` column, so the record's `email` can
only be `none` for rows produced by the embedded create path. -/

structure Appointment where
  id : Nat
  userId : Option Nat
  email : Option String
  unitId : Nat
  fullName : Option String
  agenda : Option String
  appointmentDate : Nat
  appointmentStartTime : Nat
  appointmentEndTime : Nat
  appointmentStatus : String
  createdBy : Option String
  isDeleted : Bool
deriving Repr, DecidableEq

/-- JS `x || null` on an optional string: `""` collapses to `null`. -/
def orNullStr (o : Option String) : Option String :=
  match o with
  | some s => if s == "" then none else some s
  | none => none

/-- JS `x || null` on an optional number: `0` collapses to `null`. -/
def orNullNat (o : Option Nat) : Option Nat :=
  match o with
  | some n => if n == 0 then none else some n
  | none => none

/-- JS `s || "pending"`. -/
def statusOrPending (o : Option String) : String :=
  match o with
  | some s => if s == "" then "pending" else s
  | none => "pending"

/-- JS falsiness of an optional string (`undefined`, `null` or `""`). -/
def strFalsy (o : Option String) : Bool :=
  match o with
  | some s => s == ""
  | none => true

/-- JS falsiness of an optional number (`undefined`, `null` or `0`). -/
def natFalsy (o : Option Nat) : Bool :=
  match o with
  | some n => n == 0
  | none => true

namespace AppointmentData

/-- Row predicate of `findConflictingAppointments`'s Prisma `where` clause
(`appointment-data.js`): date within `[startOfDay, endOfDay]` of the query
date, not soft-deleted, status `approved`, the `excludeAppointmentId`
spread (which, being guarded by JS `&&`, is dropped for a falsy id such as
`0`), and the half-open interval overlap test. -/
def conflictMatches (appointmentDate startTime endTime : Nat)
    (excludeAppointmentId : Option Nat) (a : Appointment) : Bool :=
  let startOfDay := dateOnly appointmentDate
  let endOfDay := startOfDay + msPerDay - 1
  decide (startOfDay ≤ a.appointmentDate) && decide (a.appointmentDate ≤ endOfDay) &&
  (a.isDeleted == false) &&
  (a.appointmentStatus == "approved") &&
  (match excludeAppointmentId with
   | some e => if e == 0 then true else a.id != e
   | none => true) &&
  decide (a.appointmentStartTime < endTime) &&
  decide (a.appointmentEndTime > startTime)

/-- `findConflictingAppointments` of `appointment-data.js`. -/
def findConflictingAppointments (db : List Appointment)
    (appointmentDate startTime endTime : Nat)
    (excludeAppointmentId : Option Nat) : List Appointment :=
  db.filter (conflictMatches appointmentDate startTime endTime excludeAppointmentId)

end AppointmentData

/-! ## Calendar rules (`appointment-services.js`, top of file) -/

/-- `isWeekday` of `appointment-services.js`: Monday = 1 .. Friday = 5. -/
def isWeekday (date : Nat) : Bool :=
  decide (1 ≤ getDay date) && decide (getDay date ≤ 5)

/-- `isBeforeDeadline` of `appointment-services.js`: strictly before 14:00 on
the same calendar day as the instant itself. -/
def isBeforeDeadline (dateTime : Nat) : Bool :=
  decide (dateTime < atHM dateTime 14 0)

/-- `overlapsLunchBreak` of `appointment-services.js`: the break window
12:00–13:00 is laid on `startTime`'s calendar day and overlap is the
half-open interval test. -/
def overlapsLunchBreak (startTime endTime : Nat) : Bool :=
  let lunchStart := atHM startTime 12 0
  let lunchEnd := atHM startTime 13 0
  decide (startTime < lunchEnd) && decide (endTime > lunchStart)

/-- `validateDeadline` of `appointment-services.js`.  The function reads the
clock a second time for "today"; that read is the explicit parameter `now`
(the call sites take both `requestTime` and `now` from the same wall
clock). -/
def validateDeadline (appointmentDate requestTime now : Nat) : Except String Unit :=
  if !isWeekday appointmentDate then
    .error "Appointments can only be scheduled on weekdays (Monday-Friday)"
  else if dateOnly appointmentDate == dateOnly now && !isBeforeDeadline requestTime then
    .error "Appointments cannot be scheduled after 2:00 PM on weekdays. Please schedule for a future date."
  else
    .ok ()

/-! ## C9 — lunch-break overlap characterization -/

/-- C9: `overlapsLunchBreak(start, end)` returns true iff `start` is strictly
before 13:00 on `start`'s calendar date and `end` is strictly after 12:00 on
that same date; a 12:00–13:00 range overlaps the break while a 13:00–14:00
range (touching endpoint) does not. -/
theorem c9_overlapsLunchBreak_iff :
    (∀ s e : Nat, overlapsLunchBreak s e = true ↔
      (s < dateOnly s + 13 * msPerHour ∧ e > dateOnly s + 12 * msPerHour)) ∧
    overlapsLunchBreak (12 * msPerHour) (13 * msPerHour) = true ∧
    overlapsLunchBreak (13 * msPerHour) (14 * msPerHour) = false := by
  refine ⟨fun s e => ?_, by decide, by decide⟩
  simp [overlapsLunchBreak, atHM, Bool.and_eq_true, decide_eq_true_iff]

/-- C9 witness: the characterization applied to the spec's 11:30–12:30
example booking. -/
theorem c9_overlapsLunchBreak_iff_witness :
    overlapsLunchBreak (11 * msPerHour + 30 * msPerMinute)
      (12 * msPerHour + 30 * msPerMinute) = true :=
  (c9_overlapsLunchBreak_iff.1 (11 * msPerHour + 30 * msPerMinute)
    (12 * msPerHour + 30 * msPerMinute)).mpr (by decide)

/-! ## C7 — submission-deadline characterization -/

/-- C7: `validateDeadline` fails iff the appointment date is not a weekday,
or the appointment date (date-only) equals the current calendar date and the
request instant's time of day is not strictly before 14:00; every weekday
date strictly after the current date is accepted at any request time; a
same-day request at 14:30 is rejected while a 23:00 request for the next
day (a weekday) is accepted. -/
theorem c7_validateDeadline_characterization :
    (∀ appointmentDate requestTime now : Nat,
      ((validateDeadline appointmentDate requestTime now).isOk = false ↔
        (isWeekday appointmentDate = false ∨
          (dateOnly appointmentDate = dateOnly now ∧
            ¬ timeOfDay requestTime < 14 * msPerHour))) ∧
      (isWeekday appointmentDate = true → dayIndex now < dayIndex appointmentDate →
        (validateDeadline appointmentDate requestTime now).isOk = true)) ∧
    (validateDeadline (4 * msPerDay) (4 * msPerDay + 14 * msPerHour + 30 * msPerMinute)
        (4 * msPerDay + 10 * msPerHour)).isOk = false ∧
    (validateDeadline (5 * msPerDay) (4 * msPerDay + 23 * msPerHour)
        (4 * msPerDay + 23 * msPerHour)).isOk = true := by
  refine ⟨fun d r now => ⟨?_, ?_⟩, by decide, by decide⟩
  · have hbefore : isBeforeDeadline r = false ↔ ¬ timeOfDay r < 14 * msPerHour := by
      simp only [isBeforeDeadline, atHM, decide_eq_false_iff_not, not_lt]
      unfold dateOnly timeOfDay dayIndex msPerDay msPerHour
      omega
    have hiff : (validateDeadline d r now).isOk = false ↔
        (isWeekday d = false ∨
          (dateOnly d = dateOnly now ∧ isBeforeDeadline r = false)) := by
      cases hw : isWeekday d <;> cases hb : isBeforeDeadline r <;>
        by_cases heq : dateOnly d = dateOnly now <;>
          simp [validateDeadline, hw, hb, heq, beq_iff_eq, Except.isOk, Except.toBool]
    rw [hiff, hbefore]
  · intro hw hfut
    have hne : dateOnly d ≠ dateOnly now := by
      unfold dateOnly
      unfold dayIndex msPerDay at hfut ⊢
      omega
    unfold validateDeadline
    simp [hw, hne, Except.isOk, Except.toBool, Ne.symm hne]

/-- C7 witness: a request placed on Monday (day 4) for Tuesday (day 5), a
future weekday, is accepted. -/
theorem c7_validateDeadline_characterization_witness :
    (validateDeadline (5 * msPerDay) 0 (4 * msPerDay)).isOk = true :=
  (c7_validateDeadline_characterization.1 (5 * msPerDay) 0 (4 * msPerDay)).2
    (by decide) (by decide)

/-! ## C8 — conflict-query characterization -/

/-- Conflict row with id `0`, used to exhibit the falsy-exclude edge case. -/
def conflictRowIdZero : Appointment :=
  { id := 0
    userId := none
    email := none
    unitId := 1
    fullName := some "Row Zero"
    agenda := none
    appointmentDate := 11 * msPerDay
    appointmentStartTime := 11 * msPerDay + 9 * msPerHour
    appointmentEndTime := 11 * msPerDay + 10 * msPerHour
    appointmentStatus := "approved"
    createdBy := none
    isDeleted := false }

/-- C8 counterexample: with `excludeId = 0` the guard
`excludeAppointmentId && {...}` is skipped (JS falsiness), so a row whose id
equals the given exclude id `0` is still returned, contradicting the claim
that a returned row's id always differs from a given exclude id. -/
theorem c8_counterexample_excludeId_zero :
    AppointmentData.findConflictingAppointments [conflictRowIdZero] (11 * msPerDay)
        (11 * msPerDay + 9 * msPerHour) (11 * msPerDay + 10 * msPerHour) (some 0)
      = [conflictRowIdZero] ∧
    conflictRowIdZero.id = 0 := by
  constructor
  · rfl
  · rfl

/-- C8 (amended): `findConflictingAppointments` returns exactly the stored
appointments on the same calendar date as the query date, not soft-deleted,
with status `approved` (so pending or rejected rows are never returned),
with id different from the exclude id whenever a **nonzero** exclude id is
given (an exclude id of `0` is falsy in JS and disables the exclusion), and
overlapping the queried range in the half-open sense
`existing.start < newEnd AND existing.end > newStart`. -/
theorem c8_findConflicting_mem_iff (db : List Appointment)
    (d s e : Nat) (ex : Option Nat) (a : Appointment) :
    a ∈ AppointmentData.findConflictingAppointments db d s e ex ↔
      (a ∈ db ∧ dayIndex a.appointmentDate = dayIndex d ∧
        a.isDeleted = false ∧ a.appointmentStatus = "approved" ∧
        (∀ i : Nat, ex = some i → i ≠ 0 → a.id ≠ i) ∧
        a.appointmentStartTime < e ∧ a.appointmentEndTime > s) := by
  unfold AppointmentData.findConflictingAppointments
  rw [List.mem_filter]
  unfold AppointmentData.conflictMatches
  constructor
  · rintro ⟨hmem, hmatch⟩
    simp only [Bool.and_eq_true, decide_eq_true_iff, beq_iff_eq] at hmatch
    obtain ⟨⟨⟨⟨⟨⟨h1, h2⟩, h3⟩, h4⟩, h5⟩, h6⟩, h7⟩
      := hmatch
    refine ⟨hmem, ?_, h3, h4, ?_, h6, h7⟩
    · simp only [dateOnly, dayIndex, msPerDay] at h1 h2 ⊢
      omega
    · intro i hex hi
      subst hex
      simp [hi] at h5
      exact h5
  · rintro ⟨hmem, hday, hdel, hst, hex, hs, he⟩
    refine ⟨hmem, ?_⟩
    simp only [Bool.and_eq_true, decide_eq_true_iff, beq_iff_eq]
    refine ⟨⟨⟨⟨⟨⟨?_, ?_⟩, hdel⟩, hst⟩, ?_⟩, hs⟩, he⟩
    · simp only [dateOnly, dayIndex, msPerDay] at hday ⊢
      omega
    · simp only [dateOnly, dayIndex, msPerDay] at hday ⊢
      omega
    · cases ex with
      | none => rfl
      | some i =>
        by_cases hi : i = 0
        · simp [hi]
        · simp [hi, hex i rfl hi]

/-- C8 witness: the amended characterization evaluated at a one-row store. -/
theorem c8_findConflicting_mem_iff_witness :
    conflictRowIdZero ∈ AppointmentData.findConflictingAppointments [conflictRowIdZero]
      (11 * msPerDay + 5 * msPerHour) (11 * msPerDay + 9 * msPerHour + 30 * msPerMinute)
      (11 * msPerDay + 10 * msPerHour + 30 * msPerMinute) (some 7) :=
  (c8_findConflicting_mem_iff [conflictRowIdZero]
      (11 * msPerDay + 5 * msPerHour) (11 * msPerDay + 9 * msPerHour + 30 * msPerMinute)
      (11 * msPerDay + 10 * msPerHour + 30 * msPerMinute) (some 7) conflictRowIdZero).mpr
    (by refine ⟨by decide, by decide, by decide, by decide, ?_, by decide, by decide⟩
        intro i hi hz
        cases hi
        decide)

/-! ## Create path (`appointment-services.js` `createAppointment` and
`appointment-data.js` `createAppointment`) -/

/-- Request body reaching the create service (after the route handler's
parsing); optional fields model JS `undefined`/`null`. -/
structure CreateRequest where
  userId : Option Nat
  email : Option String
  fullName : Option String
  unitId : Option Nat
  appointmentDate : Option Nat
  appointmentStartTime : Option Nat
  appointmentEndTime : Option Nat
  appointmentStatus : Option String
  createdBy : Option String
  agenda : Option String
deriving Repr, DecidableEq

/-- Argument object the service passes to the data layer's create. -/
structure CreateData where
  userId : Option Nat
  email : Option String
  unitId : Nat
  fullName : Option String
  appointmentDate : Nat
  appointmentStartTime : Nat
  appointmentEndTime : Nat
  appointmentStatus : Option String
  createdBy : Option String
  agenda : Option String
deriving Repr, DecidableEq

namespace AppointmentData

/-- `createAppointment` of `appointment-data.js`: the Prisma `create` call's
`data` object carries userId, unitId, fullName, agenda, the three
date/time fields, status and createdBy — and no `email` key, so the stored
row's email is left unset whatever the caller supplied.  `newId` stands for
the store-assigned autoincrement id. -/
def createAppointment (newId : Nat) (d : CreateData) : Appointment :=
  { id := newId
    userId := orNullNat d.userId
    email := none
    unitId := d.unitId
    fullName := orNullStr d.fullName
    agenda := orNullStr d.agenda
    appointmentDate := d.appointmentDate
    appointmentStartTime := d.appointmentStartTime
    appointmentEndTime := d.appointmentEndTime
    appointmentStatus := statusOrPending d.appointmentStatus
    createdBy := orNullStr d.createdBy
    isDeleted := false }

end AppointmentData

namespace AppointmentService

/-- `createAppointment` of `appointment-services.js`, exactly as the source
stands: required-field checks, `start < end`, same-UTC-date check — and
**no** deadline, lunch-break, busy-day, busy-slot or conflict check, all of
which are commented out in the source (lines 174–182).  Returns the created
row and the store with the row appended. -/
def createAppointment (db : List Appointment) (newId : Nat) (req : CreateRequest) :
    Except String (Appointment × List Appointment) :=
  if strFalsy req.fullName || (jsTrim (req.fullName.getD "") == "") then
    .error "Full name is required"
  else if strFalsy req.email then
    .error "DepEd email is required"
  else if natFalsy req.unitId then
    .error "Unit ID is required"
  else
    match req.appointmentDate, req.appointmentStartTime, req.appointmentEndTime with
    | none, _, _ => .error "Appointment date is required"
    | some _, none, _ => .error "Appointment start time is required"
    | some _, some _, none => .error "Appointment end time is required"
    | some appointmentDate, some startTime, some endTime =>
      if startTime ≥ endTime then
        .error "Start time must be before end time"
      else if dayIndex startTime != dayIndex appointmentDate
          || dayIndex endTime != dayIndex appointmentDate then
        .error "Start time and end time must be on the same date as the appointment date"
      else
        let a := AppointmentData.createAppointment newId
          { userId := orNullNat req.userId
            email := orNullStr req.email
            unitId := req.unitId.getD 0
            fullName := some (jsTrim (req.fullName.getD ""))
            appointmentDate := appointmentDate
            appointmentStartTime := startTime
            appointmentEndTime := endTime
            appointmentStatus := some (statusOrPending req.appointmentStatus)
            createdBy := orNullStr req.createdBy
            agenda := orNullStr req.agenda }
        .ok (a, db ++ [a])

end AppointmentService

/-! ## C1 — the conflict check is commented out of the create path -/

/-- Approved appointment already holding the slot 09:00–10:00 on day 11
(a Monday in the model's calendar). -/
def approvedHolder : Appointment :=
  { id := 1
    userId := none
    email := none
    unitId := 1
    fullName := some "First Booker"
    agenda := none
    appointmentDate := 11 * msPerDay
    appointmentStartTime := 11 * msPerDay + 9 * msPerHour
    appointmentEndTime := 11 * msPerDay + 10 * msPerHour
    appointmentStatus := "approved"
    createdBy := none
    isDeleted := false }

/-- Create request for the overlapping slot 09:30–10:30 on the same day,
asking directly for `approved` status. -/
def overlappingRequest : CreateRequest :=
  { userId := none
    email := some "second@deped.gov.ph"
    fullName := some "Second Booker"
    unitId := some 1
    appointmentDate := some (11 * msPerDay)
    appointmentStartTime := some (11 * msPerDay + 9 * msPerHour + 30 * msPerMinute)
    appointmentEndTime := some (11 * msPerDay + 10 * msPerHour + 30 * msPerMinute)
    appointmentStatus := some "approved"
    createdBy := none
    agenda := none }

/-- The row the service persists for `overlappingRequest`. -/
def overlappingRow : Appointment :=
  { id := 2
    userId := none
    email := none
    unitId := 1
    fullName := some "Second Booker"
    agenda := none
    appointmentDate := 11 * msPerDay
    appointmentStartTime := 11 * msPerDay + 9 * msPerHour + 30 * msPerMinute
    appointmentEndTime := 11 * msPerDay + 10 * msPerHour + 30 * msPerMinute
    appointmentStatus := "approved"
    createdBy := none
    isDeleted := false }

/-- C1 (code bug): the conflict query does flag the overlap, yet
`createAppointment` — whose own doc comment promises "conflict checking" —
succeeds and writes the row because the `findConflictingAppointments` call
is commented out, leaving two approved, non-deleted appointments on the
same calendar date with overlapping half-open time ranges. -/
theorem c1_create_bypasses_conflict_check :
    AppointmentData.findConflictingAppointments [approvedHolder] (11 * msPerDay)
        (11 * msPerDay + 9 * msPerHour + 30 * msPerMinute)
        (11 * msPerDay + 10 * msPerHour + 30 * msPerMinute) none = [approvedHolder] ∧
    AppointmentService.createAppointment [approvedHolder] 2 overlappingRequest
      = .ok (overlappingRow, [approvedHolder, overlappingRow]) ∧
    approvedHolder.appointmentStatus = "approved" ∧
    overlappingRow.appointmentStatus = "approved" ∧
    approvedHolder.isDeleted = false ∧
    overlappingRow.isDeleted = false ∧
    dayIndex approvedHolder.appointmentDate = dayIndex overlappingRow.appointmentDate ∧
    approvedHolder.appointmentStartTime < overlappingRow.appointmentEndTime ∧
    approvedHolder.appointmentEndTime > overlappingRow.appointmentStartTime := by
  refine ⟨?_, ?_, rfl, rfl, rfl, rfl, by decide, by decide, by decide⟩
  · rfl
  · rfl

/-! ## C2 — the weekday/deadline check is commented out of the create path -/

/-- Create request for day 2 of the model calendar, a Saturday. -/
def saturdayRequest : CreateRequest :=
  { userId := none
    email := some "weekend@deped.gov.ph"
    fullName := some "Weekend Booker"
    unitId := some 1
    appointmentDate := some (2 * msPerDay)
    appointmentStartTime := some (2 * msPerDay + 9 * msPerHour)
    appointmentEndTime := some (2 * msPerDay + 10 * msPerHour)
    appointmentStatus := none
    createdBy := none
    agenda := none }

/-- The row the service persists for `saturdayRequest`. -/
def saturdayRow : Appointment :=
  { id := 1
    userId := none
    email := none
    unitId := 1
    fullName := some "Weekend Booker"
    agenda := none
    appointmentDate := 2 * msPerDay
    appointmentStartTime := 2 * msPerDay + 9 * msPerHour
    appointmentEndTime := 2 * msPerDay + 10 * msPerHour
    appointmentStatus := "pending"
    createdBy := none
    isDeleted := false }

/-- C2 (code bug): day 2 is a Saturday (`isWeekday` is false, so
`validateDeadline` would reject it), yet `createAppointment` — whose doc
comment promises "deadline validation" — succeeds and persists the record
because the `validateDeadline` call is commented out. -/
theorem c2_create_bypasses_weekend_check :
    isWeekday (2 * msPerDay) = false ∧
    (validateDeadline (2 * msPerDay) 0 0).isOk = false ∧
    AppointmentService.createAppointment [] 1 saturdayRequest
      = .ok (saturdayRow, [saturdayRow]) := by
  refine ⟨by decide, by decide, ?_⟩
  rfl

/-! ## C10 — the persisted row's email is never taken from the request -/

/-- C10: the create service rejects a request with no email, and whenever it
succeeds the persisted row's email is unset (the data-layer create passes
no email to the store), so the appointment carries no contact email of its
own for later status-change notifications. -/
theorem c10_email_not_persisted (db : List Appointment) (newId : Nat) (req : CreateRequest) :
    (req.email = none → (AppointmentService.createAppointment db newId req).isOk = false) ∧
    (∀ a db2, AppointmentService.createAppointment db newId req = .ok (a, db2) →
      a.email = none ∧ db2 = db ++ [a]) := by
  constructor
  · intro hmail
    unfold AppointmentService.createAppointment
    split
    · simp [Except.isOk, Except.toBool]
    · rw [if_pos (by simp [strFalsy, hmail])]
      simp [Except.isOk, Except.toBool]
  · intro a db2 hok
    unfold AppointmentService.createAppointment at hok
    repeat' split at hok
    all_goals try exact Except.noConfusion hok
    simp only [Except.ok.injEq, Prod.mk.injEq] at hok
    obtain ⟨ha, hdb⟩ := hok
    subst ha
    subst hdb
    exact ⟨rfl, rfl⟩

/-- C10 witness: a concrete successful request — the stored row's email is
`none` although the request carried one. -/
theorem c10_email_not_persisted_witness :
    overlappingRow.email = none ∧ [approvedHolder, overlappingRow] = [approvedHolder] ++ [overlappingRow] :=
  (c10_email_not_persisted [approvedHolder] 2 overlappingRequest).2
    overlappingRow [approvedHolder, overlappingRow] (by rfl)

/-! ## Busy-day store (`busy-day-data.js`) -/

namespace BusyDayData

/-- `markDayAsBusy` of `busy-day-data.js`: upsert keyed by the normalized
(midnight) date. -/
def markDayAsBusy (busy : List Nat) (date : Nat) : List Nat :=
  let normalizedDate := dateOnly date
  if busy.contains normalizedDate then busy else busy ++ [normalizedDate]

/-- `isDayBusy` of `busy-day-data.js`: exact match on the normalized date. -/
def isDayBusy (busy : List Nat) (date : Nat) : Bool :=
  busy.contains (dateOnly date)

/-- `getAllBusyDays` of `busy-day-data.js` with both range bounds supplied
(as `findNextAvailableDate` calls it): start normalized to midnight, end
pushed to 23:59:59.999.  The `orderBy date asc` clause only affects listing
order and is immaterial to the membership queries modelled here. -/
def getAllBusyDays (busy : List Nat) (startDate endDate : Nat) : List Nat :=
  busy.filter (fun b =>
    decide (dateOnly startDate ≤ b) && decide (b ≤ dateOnly endDate + msPerDay - 1))

/-- Loop body of `findNextAvailableDate`: candidate day `i` is skipped when
its calendar day is in the busy set (the source compares ISO date strings,
which under the single-timezone model is the calendar-day number), else the
desired start/end time-of-day (hours and minutes) is projected onto the
candidate day and the approved-scope conflict query must come back empty. -/
def dayIsAvailable (db : List Appointment) (busyIdx : List Nat)
    (searchDate startTime endTime i : Nat) : Bool :=
  let checkDate := searchDate + i * msPerDay
  if busyIdx.contains (dayIndex checkDate) then false
  else
    let checkStartTime := atHM checkDate (getHours startTime) (getMinutes startTime)
    let checkEndTime := atHM checkDate (getHours endTime) (getMinutes endTime)
    (AppointmentData.findConflictingAppointments db checkDate checkStartTime
      checkEndTime none).isEmpty

/-- The `for (let i = 0; i < maxDays; i++)` scan of `findNextAvailableDate`,
as structural recursion on the remaining iteration count. -/
def searchAvailable (db : List Appointment) (busyIdx : List Nat)
    (searchDate startTime endTime : Nat) : Nat → Nat → Option Nat
  | _, 0 => none
  | i, fuel + 1 =>
    if dayIsAvailable db busyIdx searchDate startTime endTime i then
      some (searchDate + i * msPerDay)
    else
      searchAvailable db busyIdx searchDate startTime endTime (i + 1) fuel

/-- `findNextAvailableDate` of `busy-day-data.js`. -/
def findNextAvailableDate (db : List Appointment) (busy : List Nat)
    (startDate startTime endTime maxDays : Nat) : Option Nat :=
  let searchDate := dateOnly startDate
  let endSearchDate := searchDate + maxDays * msPerDay
  let busyIdx := (getAllBusyDays busy searchDate endSearchDate).map dayIndex
  searchAvailable db busyIdx searchDate startTime endTime 0 maxDays

end BusyDayData

/-! ## C5 — day-scan characterization -/

/-- Busy-day filter actually consulted by a `findNextAvailableDate` call
with horizon `n` seeded at `sd`. -/
def busyIdxOf (busy : List Nat) (sd n : Nat) : List Nat :=
  (BusyDayData.getAllBusyDays busy (dateOnly sd) (dateOnly sd + n * msPerDay)).map dayIndex

theorem searchAvailable_some_iff (db : List Appointment) (busyIdx : List Nat)
    (sd st et : Nat) :
    ∀ (fuel i : Nat) (d : Nat),
      BusyDayData.searchAvailable db busyIdx sd st et i fuel = some d ↔
        ∃ k, k < fuel ∧
          BusyDayData.dayIsAvailable db busyIdx sd st et (i + k) = true ∧
          (∀ j, j < k → BusyDayData.dayIsAvailable db busyIdx sd st et (i + j) = false) ∧
          d = sd + (i + k) * msPerDay := by
  intro fuel
  induction fuel with
  | zero =>
    intro i d
    simp [BusyDayData.searchAvailable]
  | succ m ih =>
    intro i d
    rw [BusyDayData.searchAvailable]
    cases havail : BusyDayData.dayIsAvailable db busyIdx sd st et i with
    | true =>
      rw [if_pos rfl]
      constructor
      · intro hd
        rw [Option.some.injEq] at hd
        exact ⟨0, Nat.succ_pos m, by simpa using havail,
          fun j hj => absurd hj (Nat.not_lt_zero j), by simpa using hd.symm⟩
      · rintro ⟨k, _, _, hmin, hd⟩
        rcases Nat.eq_zero_or_pos k with hk | hk
        · subst hk
          rw [hd]
          simp
        · exact absurd havail (by simpa using hmin 0 hk)
    | false =>
      rw [if_neg (by simp)]
      rw [ih (i + 1) d]
      constructor
      · rintro ⟨k, hk, hav, hmin, hd⟩
        refine ⟨k + 1, by omega, ?_, ?_, ?_⟩
        · have hidx : i + (k + 1) = i + 1 + k := by omega
          rwa [hidx]
        · intro j hj
          rcases Nat.eq_zero_or_pos j with hj0 | hj0
          · subst hj0; simpa using havail
          · have h2 := hmin (j - 1) (by omega)
            have hidx : i + 1 + (j - 1) = i + j := by omega
            rwa [hidx] at h2
        · have hidx : i + (k + 1) = i + 1 + k := by omega
          rw [hd, hidx]
      · rintro ⟨k, hk, hav, hmin, hd⟩
        rcases Nat.eq_zero_or_pos k with hk0 | hk0
        · subst hk0; simp [havail] at hav
        · refine ⟨k - 1, by omega, ?_, ?_, ?_⟩
          · have hidx : i + 1 + (k - 1) = i + k := by omega
            rwa [hidx]
          · intro j hj
            have h2 := hmin (j + 1) (by omega)
            have hidx : i + (j + 1) = i + 1 + j := by omega
            rwa [hidx] at h2
          · have hidx : i + 1 + (k - 1) = i + k := by omega
            rw [hd, hidx]

theorem searchAvailable_none_iff (db : List Appointment) (busyIdx : List Nat)
    (sd st et : Nat) :
    ∀ (fuel i : Nat),
      BusyDayData.searchAvailable db busyIdx sd st et i fuel = none ↔
        ∀ k, k < fuel → BusyDayData.dayIsAvailable db busyIdx sd st et (i + k) = false := by
  intro fuel
  induction fuel with
  | zero => intro i; simp [BusyDayData.searchAvailable]
  | succ m ih =>
    intro i
    rw [BusyDayData.searchAvailable]
    cases havail : BusyDayData.dayIsAvailable db busyIdx sd st et i with
    | true =>
      rw [if_pos rfl]
      constructor
      · intro h; exact absurd h (by simp)
      · intro h
        have h0 := h 0 (Nat.succ_pos m)
        simp [havail] at h0
    | false =>
      rw [if_neg (by simp)]
      rw [ih (i + 1)]
      constructor
      · intro h k hk
        rcases Nat.eq_zero_or_pos k with hk0 | hk0
        · subst hk0; simpa using havail
        · have h2 := h (k - 1) (by omega)
          have hidx : i + 1 + (k - 1) = i + k := by omega
          rwa [hidx] at h2
      · intro h k hk
        have h2 := h (k + 1) (by omega)
        have hidx : i + (k + 1) = i + 1 + k := by omega
        rwa [hidx] at h2

/-- C5 counterexample: with a horizon of 0, `findNextAvailableDate` returns
null even though `fromDate` itself is neither blocked nor in conflict (the
claim requires `fromDate` to be returned in that situation). -/
theorem c5_counterexample_zero_horizon :
    BusyDayData.isDayBusy [] 0 = false ∧
    AppointmentData.findConflictingAppointments [] 0 (9 * msPerHour) (10 * msPerHour) none = [] ∧
    BusyDayData.dayIsAvailable [] [] 0 (9 * msPerHour) (10 * msPerHour) 0 = true ∧
    BusyDayData.findNextAvailableDate [] [] 0 (9 * msPerHour) (10 * msPerHour) 0 = none := by
  exact ⟨rfl, rfl, rfl, rfl⟩

/-- C5 (amended): `findNextAvailableDate` scans the days
`fromDate + 0, …, fromDate + horizonDays - 1` — the upper bound is
exclusive, so a horizon of 0 always yields null — and returns the first
scanned day that is not day-blocked and has zero approved-status conflicts
for the desired time-of-day projected onto it, or null when every scanned
day is blocked or in conflict. -/
theorem c5_findNextAvailableDate_characterization :
    (∀ db busy sd st et, BusyDayData.findNextAvailableDate db busy sd st et 0 = none) ∧
    (∀ db busy sd st et n d,
      BusyDayData.findNextAvailableDate db busy sd st et n = some d ↔
        ∃ i, i < n ∧
          BusyDayData.dayIsAvailable db (busyIdxOf busy sd n) (dateOnly sd) st et i = true ∧
          (∀ j, j < i →
            BusyDayData.dayIsAvailable db (busyIdxOf busy sd n) (dateOnly sd) st et j = false) ∧
          d = dateOnly sd + i * msPerDay) ∧
    (∀ db busy sd st et n,
      BusyDayData.findNextAvailableDate db busy sd st et n = none ↔
        ∀ i, i < n →
          BusyDayData.dayIsAvailable db (busyIdxOf busy sd n) (dateOnly sd) st et i = false) := by
  refine ⟨fun db busy sd st et => rfl, fun db busy sd st et n d => ?_, fun db busy sd st et n => ?_⟩
  · show BusyDayData.searchAvailable db (busyIdxOf busy sd n) (dateOnly sd) st et 0 n = some d ↔ _
    rw [searchAvailable_some_iff]
    simp only [Nat.zero_add]
  · show BusyDayData.searchAvailable db (busyIdxOf busy sd n) (dateOnly sd) st et 0 n = none ↔ _
    rw [searchAvailable_none_iff]
    simp only [Nat.zero_add]

/-- C5 witness: the characterization instantiated on a store where day 0 is
blocked and day 1 is free, so the scan returns day 1. -/
theorem c5_findNextAvailableDate_characterization_witness :
    BusyDayData.findNextAvailableDate [] [0] 0 (9 * msPerHour) (10 * msPerHour) 2
      = some msPerDay :=
  (c5_findNextAvailableDate_characterization.2.1 [] [0] 0 (9 * msPerHour)
      (10 * msPerHour) 2 msPerDay).mpr
    ⟨1, by decide, by decide,
      fun j hj => by
        have hj0 : j = 0 := by omega
        subst hj0
        decide,
      by decide⟩

/-! ## Busy time slots and the update path -/

/-- Row of the `busyTimeSlot` table (migration: id, date, startTime,
endTime, reason); `markTimeSlotAsBusy` of `busy-time-slot-data.js` stores
`date` normalized to UTC midnight. -/
structure BusySlot where
  id : Nat
  date : Nat
  startTime : Nat
  endTime : Nat
  reason : Option String
deriving Repr, DecidableEq

/-- `isTimeSlotBusy` of `busy-time-slot-data.js`: normalize the query date
to UTC midnight, fetch the rows whose stored `date` equals that exact
value (Prisma `where: { date: normalizedDate }`), and walk them returning
true on the first half-open overlap
`startTime < busySlot.endTime AND endTime > busySlot.startTime`. -/
def isTimeSlotBusy (slots : List BusySlot) (date startTime endTime : Nat) : Bool :=
  let normalizedDate := dateOnly date
  (slots.filter (fun s => s.date == normalizedDate)).any
    (fun s => decide (startTime < s.endTime) && decide (endTime > s.startTime))

/-- Patch body reaching the update service (after the route handler):
`none` is JS `undefined` (field absent); for the nullable text/id fields the
inner `Option` is JS `null`. -/
structure UpdatePatch where
  appointmentDate : Option Nat
  appointmentStartTime : Option Nat
  appointmentEndTime : Option Nat
  appointmentStatus : Option String
  unitId : Option Nat
  userId : Option (Option Nat)
  fullName : Option String
  email : Option (Option String)
  agenda : Option (Option String)
deriving Repr, DecidableEq

/-- Argument object the update service passes to the data layer's update
(`appointment-data.js` `updateAppointment`): only fields that are not JS
`undefined` are written; the data layer handles no `email` key at all. -/
structure UpdateData where
  appointmentDate : Option Nat
  appointmentStartTime : Option Nat
  appointmentEndTime : Option Nat
  appointmentStatus : Option String
  unitId : Option Nat
  userId : Option (Option Nat)
  fullName : Option (Option String)
  agenda : Option (Option String)
deriving Repr, DecidableEq

namespace AppointmentData

/-- Field-by-field application of `updateAppointment`'s `updateData` object
(`appointment-data.js`): present fields overwrite, with `|| null` collapses
on userId, fullName and agenda. -/
def applyUpdate (d : UpdateData) (a : Appointment) : Appointment :=
  { a with
    appointmentDate := d.appointmentDate.getD a.appointmentDate
    appointmentStartTime := d.appointmentStartTime.getD a.appointmentStartTime
    appointmentEndTime := d.appointmentEndTime.getD a.appointmentEndTime
    appointmentStatus := d.appointmentStatus.getD a.appointmentStatus
    unitId := d.unitId.getD a.unitId
    userId := match d.userId with
      | some v => orNullNat v
      | none => a.userId
    fullName := match d.fullName with
      | some v => orNullStr v
      | none => a.fullName
    agenda := match d.agenda with
      | some v => orNullStr v
      | none => a.agenda }

/-- `updateAppointment` of `appointment-data.js`: Prisma `update` keyed by
id.  Returns the updated row (`none` models the P2025 "record not found"
throw) and the table afterwards. -/
def updateAppointment (db : List Appointment) (i : Nat) (d : UpdateData) :
    Option Appointment × List Appointment :=
  ((db.find? (fun a => a.id == i)).map (applyUpdate d),
   db.map (fun a => if a.id == i then applyUpdate d a else a))

/-- `findAppointmentById` of `appointment-data.js`: Prisma `findUnique` by
id (soft-deleted rows included). -/
def findAppointmentById (db : List Appointment) (i : Nat) : Option Appointment :=
  db.find? (fun a => a.id == i)

end AppointmentData

namespace AppointmentService

/-- `updateAppointment` of `appointment-services.js`.  The effective start
and end times are the patch values when present, else the stored ones; the
effective appointment date is **derived from the effective start time**
(forced to UTC midnight) — the patch's own `appointmentDate` field feeds
only the "patch touches date/time" test deciding whether the temporal
validations run.  The email notifications emitted after a successful store
write (source lines 348–405) are outward side effects with no bearing on
the returned or stored data and are not modelled. -/
def updateAppointment (now : Nat) (busyDays : List Nat) (busySlots : List BusySlot)
    (db : List Appointment) (id : Nat) (patch : UpdatePatch) :
    Except String (Appointment × List Appointment) :=
  if id == 0 then .error "Appointment ID is required"
  else
    match AppointmentData.findAppointmentById db id with
    | none => .error "Appointment not found"
    | some existingAppointment =>
      let startTime := patch.appointmentStartTime.getD existingAppointment.appointmentStartTime
      let endTime := patch.appointmentEndTime.getD existingAppointment.appointmentEndTime
      let derivedAppointmentDate := dateOnly startTime
      if startTime ≥ endTime then .error "Start time must be before end time"
      else if dayIndex startTime != dayIndex derivedAppointmentDate
          || dayIndex endTime != dayIndex derivedAppointmentDate then
        .error "Start time and end time must be on the same date as the appointment date"
      else
        let temporalError : Option String :=
          if patch.appointmentDate.isSome || patch.appointmentStartTime.isSome
              || patch.appointmentEndTime.isSome then
            match validateDeadline derivedAppointmentDate now now with
            | .error e => some e
            | .ok _ =>
              if overlapsLunchBreak startTime endTime then
                some "Appointments cannot be scheduled during lunch break (12:00 PM - 1:00 PM). Please choose a different time."
              else if BusyDayData.isDayBusy busyDays derivedAppointmentDate then
                some "This day is marked as busy. Appointments cannot be scheduled on this date."
              else if isTimeSlotBusy busySlots derivedAppointmentDate startTime endTime then
                some "This time slot is marked as busy. Appointments cannot be scheduled during this time."
              else none
          else none
        match temporalError with
        | some e => .error e
        | none =>
          if (AppointmentData.findConflictingAppointments db derivedAppointmentDate
              startTime endTime (some id)).isEmpty = false then
            .error "Time slot conflict: There is already an appointment scheduled on this date. Please choose a different time."
          else
            match AppointmentData.updateAppointment db id
              { appointmentDate := some derivedAppointmentDate
                appointmentStartTime := some (if patch.appointmentStartTime.isSome then
                  startTime else existingAppointment.appointmentStartTime)
                appointmentEndTime := some (if patch.appointmentEndTime.isSome then
                  endTime else existingAppointment.appointmentEndTime)
                appointmentStatus := patch.appointmentStatus
                unitId := patch.unitId
                userId := some (match patch.userId with
                  | some v => v
                  | none => existingAppointment.userId)
                fullName := some (match patch.fullName with
                  | some s => if jsTrim s == "" then none else some (jsTrim s)
                  | none => existingAppointment.fullName)
                agenda := some (match patch.agenda with
                  | some v => v
                  | none => existingAppointment.agenda) } with
            | (some updatedAppointment, db2) => .ok (updatedAppointment, db2)
            | (none, _) => .error "Record to update not found."

end AppointmentService

/-! ## C6 — which values the update validates and persists -/

/-- Stored appointment used in the C6 scenario: pending, 09:00–10:00 on
day 11 (a Monday). -/
def storedMonday : Appointment :=
  { id := 1
    userId := none
    email := none
    unitId := 1
    fullName := some "Juan"
    agenda := none
    appointmentDate := 11 * msPerDay
    appointmentStartTime := 11 * msPerDay + 9 * msPerHour
    appointmentEndTime := 11 * msPerDay + 10 * msPerHour
    appointmentStatus := "pending"
    createdBy := none
    isDeleted := false }

/-- Patch carrying only a new appointment date (day 18, also a Monday) and
no time fields. -/
def dateOnlyPatch : UpdatePatch :=
  { appointmentDate := some (18 * msPerDay)
    appointmentStartTime := none
    appointmentEndTime := none
    appointmentStatus := none
    unitId := none
    userId := none
    fullName := none
    email := none
    agenda := none }

/-- C6 counterexample: the patch supplies `appointmentDate = day 18` and no
times, yet the update succeeds with persisted date day 11 — the UTC
midnight of the **existing start time** — not the patch's date.  The claim
that the effective date is "the patch's appointmentDate when the patch
provides one" is false. -/
theorem c6_counterexample_patch_date_ignored :
    dateOnlyPatch.appointmentDate = some (18 * msPerDay) ∧
    ((AppointmentService.updateAppointment (4 * msPerDay + 9 * msPerHour) [] [] [storedMonday]
        1 dateOnlyPatch).toOption.map (fun p => p.1.appointmentDate)) = some (11 * msPerDay) ∧
    (11 * msPerDay : Nat) ≠ 18 * msPerDay := by
  refine ⟨rfl, ?_, by decide⟩
  rfl

/-- JS `cond ? x : fallback` collapses to `getD` when `cond` is `isSome` and
`x` the `getD` itself. -/
theorem opt_getD_if {α : Type} (o : Option α) (d : α) :
    (if o.isSome then o.getD d else d) = o.getD d := by
  cases o <;> simp

/-- C6 (amended): for every update on an existing appointment, the effective
start and end times (used for validation and persisted) are the patch values
when present, else the stored values; the effective and persisted
appointment date is the midnight of the **effective start time's** calendar
date — the patch's `appointmentDate` value itself is ignored. -/
theorem c6_update_effective_fields (now : Nat) (busyDays : List Nat)
    (busySlots : List BusySlot) (db : List Appointment) (id : Nat)
    (patch : UpdatePatch) (ex u : Appointment) (db2 : List Appointment)
    (hex : AppointmentData.findAppointmentById db id = some ex)
    (hok : AppointmentService.updateAppointment now busyDays busySlots db id patch
      = .ok (u, db2)) :
    u.appointmentStartTime = patch.appointmentStartTime.getD ex.appointmentStartTime ∧
    u.appointmentEndTime = patch.appointmentEndTime.getD ex.appointmentEndTime ∧
    u.appointmentDate
      = dateOnly (patch.appointmentStartTime.getD ex.appointmentStartTime) := by
  unfold AppointmentService.updateAppointment at hok
  rw [hex] at hok
  dsimp only [] at hok
  repeat' split at hok
  all_goals try exact Except.noConfusion hok
  rename_i u3 db3 heq
  simp only [Except.ok.injEq, Prod.mk.injEq] at hok
  obtain ⟨hu, _⟩ := hok
  have hfst := congrArg Prod.fst heq
  rw [show ∀ dC, (AppointmentData.updateAppointment db id dC).1
      = (AppointmentData.findAppointmentById db id).map (AppointmentData.applyUpdate dC)
    from fun dC => rfl] at hfst
  rw [hex, Option.map_some', Option.some.injEq] at hfst
  subst hu
  rw [← hfst]
  exact ⟨opt_getD_if _ _, opt_getD_if _ _, rfl⟩

/-- Patch carrying new start and end times (on day 12, a Tuesday). -/
def reschedulePatch : UpdatePatch :=
  { appointmentDate := none
    appointmentStartTime := some (12 * msPerDay + 10 * msPerHour)
    appointmentEndTime := some (12 * msPerDay + 11 * msPerHour)
    appointmentStatus := none
    unitId := none
    userId := none
    fullName := none
    email := none
    agenda := none }

/-- Row stored after applying `reschedulePatch` to `storedMonday`. -/
def movedTuesday : Appointment :=
  { id := 1
    userId := none
    email := none
    unitId := 1
    fullName := some "Juan"
    agenda := none
    appointmentDate := 12 * msPerDay
    appointmentStartTime := 12 * msPerDay + 10 * msPerHour
    appointmentEndTime := 12 * msPerDay + 11 * msPerHour
    appointmentStatus := "pending"
    createdBy := none
    isDeleted := false }

/-- C6 witness: the amended statement instantiated at a concrete
reschedule. -/
theorem c6_update_effective_fields_witness :
    movedTuesday.appointmentStartTime
      = reschedulePatch.appointmentStartTime.getD storedMonday.appointmentStartTime ∧
    movedTuesday.appointmentEndTime
      = reschedulePatch.appointmentEndTime.getD storedMonday.appointmentEndTime ∧
    movedTuesday.appointmentDate
      = dateOnly (reschedulePatch.appointmentStartTime.getD storedMonday.appointmentStartTime) :=
  c6_update_effective_fields (4 * msPerDay + 9 * msPerHour) [] [] [storedMonday] 1
    reschedulePatch storedMonday movedTuesday [movedTuesday] (by rfl) (by rfl)

/-! ## Block-day cascade (`busy-day-services.js` `markDayAsBusy`) -/

/-- Status of a stored appointment, looked up by id. -/
def statusOf (db : List Appointment) (i : Nat) : Option String :=
  (db.find? (fun a => a.id == i)).map Appointment.appointmentStatus

namespace BusyDayService

/-- Appointments the cascade operates on: the `findAllAppointments` query
with `{date, isDeleted: false}` followed by the in-memory filter to
`approved`/`pending` status. -/
def activeOnDate (db : List Appointment) (date : Nat) : List Appointment :=
  (db.filter (fun a => (a.isDeleted == false) &&
      decide (dateOnly date ≤ a.appointmentDate) &&
      decide (a.appointmentDate ≤ dateOnly date + msPerDay - 1))).filter
    (fun a => (a.appointmentStatus == "approved") || (a.appointmentStatus == "pending"))

/-- Accumulated loop state of the cascade: the live store and the `moved`
and `failed` collections. -/
structure BlockDayState where
  db : List Appointment
  movedAppointments : List Appointment
  failedMoves : List (Appointment × String)
deriving Repr, DecidableEq

/-- One iteration of the cascade loop over appointment `a`: search 60 days
ahead from the blocked date; on a hit, update date/start/end in place and
record as moved; on a miss, set the status to `rejected` and record as
failed; a throw from the store update (`updErr a.id = some msg`) is caught
and recorded as a failure for `a` without touching the store. -/
def processAppointment (updErr : Nat → Option String) (busy : List Nat)
    (normalizedDate : Nat) (st : BlockDayState) (a : Appointment) : BlockDayState :=
  match BusyDayData.findNextAvailableDate st.db busy normalizedDate
      a.appointmentStartTime a.appointmentEndTime 60 with
  | some nextDate =>
    match updErr a.id with
    | some msg => { st with failedMoves := st.failedMoves ++ [(a, msg)] }
    | none =>
      let newStartTime := atHM nextDate (getHours a.appointmentStartTime)
        (getMinutes a.appointmentStartTime)
      let newEndTime := atHM nextDate (getHours a.appointmentEndTime)
        (getMinutes a.appointmentEndTime)
      let updated := AppointmentData.updateAppointment st.db a.id
        { appointmentDate := some nextDate
          appointmentStartTime := some newStartTime
          appointmentEndTime := some newEndTime
          appointmentStatus := none
          unitId := none
          userId := none
          fullName := none
          agenda := none }
      match updated.1 with
      | some u =>
        { db := updated.2, movedAppointments := st.movedAppointments ++ [u],
          failedMoves := st.failedMoves }
      | none =>
        { st with failedMoves := st.failedMoves ++ [(a, "Record to update not found.")] }
  | none =>
    match updErr a.id with
    | some msg => { st with failedMoves := st.failedMoves ++ [(a, msg)] }
    | none =>
      let updated := AppointmentData.updateAppointment st.db a.id
        { appointmentDate := none
          appointmentStartTime := none
          appointmentEndTime := none
          appointmentStatus := some "rejected"
          unitId := none
          userId := none
          fullName := none
          agenda := none }
      match updated.1 with
      | some _ =>
        { db := updated.2, movedAppointments := st.movedAppointments,
          failedMoves := st.failedMoves ++ [(a, "No available date found within 60 days")] }
      | none =>
        { st with failedMoves := st.failedMoves ++ [(a, "Record to update not found.")] }

/-- `markDayAsBusy` of `busy-day-services.js`: upsert the busy day, query
the affected appointments, then run the per-appointment loop. -/
def markDayAsBusy (updErr : Nat → Option String) (db : List Appointment)
    (busy : List Nat) (date : Nat) : List Nat × BlockDayState :=
  let busy2 := BusyDayData.markDayAsBusy busy date
  let normalizedDate := dateOnly date
  let activeAppointments := activeOnDate db normalizedDate
  (busy2,
   activeAppointments.foldl (processAppointment updErr busy2 normalizedDate)
     { db := db, movedAppointments := [], failedMoves := [] })

end BusyDayService

/-! ## Frame lemmas for the store update -/

theorem applyUpdate_id (d : UpdateData) (a : Appointment) :
    (AppointmentData.applyUpdate d a).id = a.id := rfl

/-- Updating a row never changes the stored id sequence. -/
theorem updateAppointment_ids (db : List Appointment) (i : Nat) (d : UpdateData) :
    ((AppointmentData.updateAppointment db i d).2).map Appointment.id
      = db.map Appointment.id := by
  induction db with
  | nil => rfl
  | cons b bs ih =>
    simp only [AppointmentData.updateAppointment, List.map_cons] at ih ⊢
    split
    · rw [applyUpdate_id]
      exact congrArg (b.id :: ·) ih
    · exact congrArg (b.id :: ·) ih

/-- Updating row `j` leaves the lookup of any other id unchanged. -/
theorem updateAppointment_find_ne (db : List Appointment) (j i : Nat)
    (d : UpdateData) (hne : i ≠ j) :
    ((AppointmentData.updateAppointment db j d).2).find? (fun a => a.id == i)
      = db.find? (fun a => a.id == i) := by
  induction db with
  | nil => rfl
  | cons b bs ih =>
    simp only [AppointmentData.updateAppointment, List.map_cons] at ih ⊢
    by_cases hbj : b.id = j
    · rw [if_pos (by simp [hbj])]
      rw [List.find?_cons_of_neg _ (by simp [applyUpdate_id, hbj]; omega),
        List.find?_cons_of_neg _ (by simp [hbj]; omega)]
      exact ih
    · rw [if_neg (by simp [hbj])]
      by_cases hbi : b.id = i
      · rw [List.find?_cons_of_pos _ (by simp [hbi]), List.find?_cons_of_pos _ (by simp [hbi])]
      · rw [List.find?_cons_of_neg _ (by simp [hbi]), List.find?_cons_of_neg _ (by simp [hbi])]
        exact ih

/-- Updating row `i` maps its lookup through `applyUpdate`. -/
theorem updateAppointment_find_eq (db : List Appointment) (i : Nat)
    (d : UpdateData) (r : Appointment)
    (hr : db.find? (fun a => a.id == i) = some r) :
    ((AppointmentData.updateAppointment db i d).2).find? (fun a => a.id == i)
      = some (AppointmentData.applyUpdate d r) := by
  induction db with
  | nil => exact absurd hr (by simp)
  | cons b bs ih =>
    simp only [AppointmentData.updateAppointment, List.map_cons] at ih ⊢
    by_cases hbi : b.id = i
    · rw [List.find?_cons_of_pos _ (by simp [hbi])] at hr
      rw [Option.some.injEq] at hr
      subst hr
      rw [if_pos (by simp [hbi])]
      rw [List.find?_cons_of_pos _ (by simp [applyUpdate_id, hbi])]
    · rw [List.find?_cons_of_neg _ (by simp [hbi])] at hr
      rw [if_neg (by simp [hbi])]
      rw [List.find?_cons_of_neg _ (by simp [hbi])]
      exact ih hr

/-- With distinct ids, the lookup of a stored row's id returns that row. -/
theorem find_of_mem_nodup (db : List Appointment) (a : Appointment)
    (hmem : a ∈ db) (hnodup : (db.map Appointment.id).Nodup) :
    db.find? (fun x => x.id == a.id) = some a := by
  induction db with
  | nil => exact absurd hmem (by simp)
  | cons b bs ih =>
    rcases List.mem_cons.mp hmem with hab | hmem2
    · subst hab
      rw [List.find?_cons_of_pos _ (by simp)]
    · have hne : b.id ≠ a.id := by
        intro hcontra
        have hin : a.id ∈ bs.map Appointment.id := List.mem_map_of_mem _ hmem2
        rw [List.map_cons, List.nodup_cons] at hnodup
        exact hnodup.1 (hcontra ▸ hin)
      rw [List.find?_cons_of_neg _ (by simp [hne])]
      exact ih hmem2 (by
        rw [List.map_cons, List.nodup_cons] at hnodup
        exact hnodup.2)

/-- Prisma update at an id the lookup resolves: the returned pair in
explicit form. -/
theorem updateAppointment_eq (db : List Appointment) (i : Nat) (d : UpdateData)
    (r : Appointment) (hr : db.find? (fun x => x.id == i) = some r) :
    AppointmentData.updateAppointment db i d
      = (some (AppointmentData.applyUpdate d r),
        db.map (fun x => if x.id == i then AppointmentData.applyUpdate d x else x)) := by
  unfold AppointmentData.updateAppointment
  rw [hr]
  rfl

/-! ## Per-iteration lemmas for the cascade loop -/

/-- Every iteration of the cascade records its appointment in exactly one of
the two outcome lists. -/
theorem processAppointment_count (updErr : Nat → Option String) (busy : List Nat)
    (nd : Nat) (st : BusyDayService.BlockDayState) (a : Appointment) :
    (BusyDayService.processAppointment updErr busy nd st a).movedAppointments.length
        + (BusyDayService.processAppointment updErr busy nd st a).failedMoves.length
      = st.movedAppointments.length + st.failedMoves.length + 1 := by
  unfold BusyDayService.processAppointment
  dsimp only []
  repeat' split
  all_goals simp [List.length_append]
  all_goals omega

/-- An iteration over `a` never rewrites any other appointment's status. -/
theorem processAppointment_statusOf_ne (updErr : Nat → Option String) (busy : List Nat)
    (nd : Nat) (st : BusyDayService.BlockDayState) (a : Appointment) (i : Nat)
    (hne : i ≠ a.id) :
    statusOf (BusyDayService.processAppointment updErr busy nd st a).db i
      = statusOf st.db i := by
  unfold BusyDayService.processAppointment
  dsimp only []
  repeat' split
  all_goals try rfl
  all_goals
    simp only [statusOf]
  all_goals
    rw [updateAppointment_find_ne st.db a.id i _ hne]

/-- An iteration whose store update throws records the caught message as a
failure for its appointment. -/
theorem processAppointment_err_pushes (updErr : Nat → Option String) (busy : List Nat)
    (nd : Nat) (st : BusyDayService.BlockDayState) (a : Appointment) (m : String)
    (hm : updErr a.id = some m) :
    (a, m) ∈ (BusyDayService.processAppointment updErr busy nd st a).failedMoves := by
  unfold BusyDayService.processAppointment
  cases hnext : BusyDayData.findNextAvailableDate st.db busy nd
      a.appointmentStartTime a.appointmentEndTime 60 with
  | some nextDate =>
    rw [hm]
    exact List.mem_append_right _ (by simp)
  | none =>
    rw [hm]
    exact List.mem_append_right _ (by simp)

/-- Failures already collected survive every later iteration. -/
theorem processAppointment_failed_mono (updErr : Nat → Option String) (busy : List Nat)
    (nd : Nat) (st : BusyDayService.BlockDayState) (a : Appointment)
    (p : Appointment × String) (hp : p ∈ st.failedMoves) :
    p ∈ (BusyDayService.processAppointment updErr busy nd st a).failedMoves := by
  unfold BusyDayService.processAppointment
  dsimp only []
  repeat' split
  all_goals first
  | exact hp
  | exact List.mem_append_left _ hp

/-- Outcome bookkeeping of one iteration, given that the store still holds
the appointment's row: either the appointment is moved (no new failure, its
status untouched), or it lands in the failed list — with its status
untouched when the failure came from a thrown store update, and with its
status set to `rejected` when no available date was found. -/
theorem processAppointment_spec (updErr : Nat → Option String) (busy : List Nat)
    (nd : Nat) (st : BusyDayService.BlockDayState) (a : Appointment)
    (hst : statusOf st.db a.id = some a.appointmentStatus) :
    ((BusyDayService.processAppointment updErr busy nd st a).failedMoves = st.failedMoves ∧
      statusOf (BusyDayService.processAppointment updErr busy nd st a).db a.id
        = some a.appointmentStatus) ∨
    (∃ msg, (BusyDayService.processAppointment updErr busy nd st a).failedMoves
        = st.failedMoves ++ [(a, msg)] ∧
      ((updErr a.id = some msg ∧
          statusOf (BusyDayService.processAppointment updErr busy nd st a).db a.id
            = some a.appointmentStatus) ∨
        (updErr a.id = none ∧
          statusOf (BusyDayService.processAppointment updErr busy nd st a).db a.id
            = some "rejected"))) := by
  obtain ⟨r, hr, hrs⟩ : ∃ r, st.db.find? (fun x => x.id == a.id) = some r ∧
      r.appointmentStatus = a.appointmentStatus := by
    unfold statusOf at hst
    cases hfind : st.db.find? (fun x => x.id == a.id) with
    | none => rw [hfind] at hst; exact absurd hst (by simp)
    | some r0 =>
      rw [hfind] at hst
      exact ⟨r0, rfl, by simpa using hst⟩
  unfold BusyDayService.processAppointment
  cases hnext : BusyDayData.findNextAvailableDate st.db busy nd
      a.appointmentStartTime a.appointmentEndTime 60 with
  | some nextDate =>
    cases herr : updErr a.id with
    | some msg => exact Or.inr ⟨msg, rfl, Or.inl ⟨rfl, hst⟩⟩
    | none =>
      dsimp only []
      rw [updateAppointment_eq st.db a.id
        { appointmentDate := some nextDate
          appointmentStartTime := some (atHM nextDate (getHours a.appointmentStartTime)
            (getMinutes a.appointmentStartTime))
          appointmentEndTime := some (atHM nextDate (getHours a.appointmentEndTime)
            (getMinutes a.appointmentEndTime))
          appointmentStatus := none
          unitId := none
          userId := none
          fullName := none
          agenda := none } r hr]
      dsimp only []
      refine Or.inl ⟨rfl, ?_⟩
      have hfind2 := updateAppointment_find_eq st.db a.id
        { appointmentDate := some nextDate
          appointmentStartTime := some (atHM nextDate (getHours a.appointmentStartTime)
            (getMinutes a.appointmentStartTime))
          appointmentEndTime := some (atHM nextDate (getHours a.appointmentEndTime)
            (getMinutes a.appointmentEndTime))
          appointmentStatus := none
          unitId := none
          userId := none
          fullName := none
          agenda := none } r hr
      dsimp only [AppointmentData.updateAppointment] at hfind2
      unfold statusOf
      rw [hfind2]
      simp [AppointmentData.applyUpdate, hrs]
  | none =>
    cases herr : updErr a.id with
    | some msg => exact Or.inr ⟨msg, rfl, Or.inl ⟨rfl, hst⟩⟩
    | none =>
      dsimp only []
      rw [updateAppointment_eq st.db a.id
        { appointmentDate := none
          appointmentStartTime := none
          appointmentEndTime := none
          appointmentStatus := some "rejected"
          unitId := none
          userId := none
          fullName := none
          agenda := none } r hr]
      dsimp only []
      refine Or.inr ⟨"No available date found within 60 days", rfl, Or.inr ⟨rfl, ?_⟩⟩
      have hfind2 := updateAppointment_find_eq st.db a.id
        { appointmentDate := none
          appointmentStartTime := none
          appointmentEndTime := none
          appointmentStatus := some "rejected"
          unitId := none
          userId := none
          fullName := none
          agenda := none } r hr
      dsimp only [AppointmentData.updateAppointment] at hfind2
      unfold statusOf
      rw [hfind2]
      simp [AppointmentData.applyUpdate]

/-! ## Whole-loop lemmas -/

theorem foldl_count (updErr : Nat → Option String) (busy : List Nat) (nd : Nat) :
    ∀ (l : List Appointment) (st : BusyDayService.BlockDayState),
      (l.foldl (BusyDayService.processAppointment updErr busy nd) st).movedAppointments.length
          + (l.foldl (BusyDayService.processAppointment updErr busy nd) st).failedMoves.length
        = st.movedAppointments.length + st.failedMoves.length + l.length := by
  intro l
  induction l with
  | nil => intro st; simp
  | cons b rest ih =>
    intro st
    rw [List.foldl_cons, ih (BusyDayService.processAppointment updErr busy nd st b)]
    have h := processAppointment_count updErr busy nd st b
    rw [List.length_cons]
    omega

theorem foldl_failed_mono (updErr : Nat → Option String) (busy : List Nat) (nd : Nat) :
    ∀ (l : List Appointment) (st : BusyDayService.BlockDayState) (p : Appointment × String),
      p ∈ st.failedMoves →
      p ∈ (l.foldl (BusyDayService.processAppointment updErr busy nd) st).failedMoves := by
  intro l
  induction l with
  | nil => intro st p hp; simpa using hp
  | cons b rest ih =>
    intro st p hp
    rw [List.foldl_cons]
    exact ih _ p (processAppointment_failed_mono updErr busy nd st b p hp)

theorem foldl_err_mem (updErr : Nat → Option String) (busy : List Nat) (nd : Nat) :
    ∀ (l : List Appointment) (st : BusyDayService.BlockDayState) (a : Appointment) (m : String),
      a ∈ l → updErr a.id = some m →
      (a, m) ∈ (l.foldl (BusyDayService.processAppointment updErr busy nd) st).failedMoves := by
  intro l
  induction l with
  | nil => intro st a m ha _; exact absurd ha (by simp)
  | cons b rest ih =>
    intro st a m ha hm
    rw [List.foldl_cons]
    rcases List.mem_cons.mp ha with hab | ha2
    · subst hab
      exact foldl_failed_mono updErr busy nd rest _ _
        (processAppointment_err_pushes updErr busy nd st a m hm)
    · exact ih _ a m ha2 hm

theorem foldl_statusOf_frame (updErr : Nat → Option String) (busy : List Nat) (nd : Nat) :
    ∀ (l : List Appointment) (st : BusyDayService.BlockDayState) (i : Nat),
      i ∉ l.map Appointment.id →
      statusOf ((l.foldl (BusyDayService.processAppointment updErr busy nd) st).db) i
        = statusOf st.db i := by
  intro l
  induction l with
  | nil => intro st i _; rfl
  | cons b rest ih =>
    intro st i hi
    rw [List.map_cons] at hi
    have h1 : i ≠ b.id := fun h => hi (by simp [h])
    have h2 : i ∉ rest.map Appointment.id := fun h => hi (List.mem_cons_of_mem _ h)
    rw [List.foldl_cons, ih _ i h2,
      processAppointment_statusOf_ne updErr busy nd st b i h1]

/-- Fold-level bookkeeping of the failed list: with distinct ids and every
pending appointment still present in the store, each failure entry comes
from the oracle throwing (status untouched) or from the no-available-date
branch (status set to `rejected`). -/
theorem foldl_failed_spec (updErr : Nat → Option String) (busy : List Nat) (nd : Nat) :
    ∀ (l : List Appointment) (st : BusyDayService.BlockDayState),
      (l.map Appointment.id).Nodup →
      (∀ b ∈ l, statusOf st.db b.id = some b.appointmentStatus) →
      ∀ p : Appointment × String,
        p ∈ (l.foldl (BusyDayService.processAppointment updErr busy nd) st).failedMoves →
        p ∈ st.failedMoves ∨
          (p.1 ∈ l ∧
            ((updErr p.1.id = some p.2 ∧
                statusOf ((l.foldl (BusyDayService.processAppointment updErr busy nd) st).db)
                    p.1.id
                  = some p.1.appointmentStatus) ∨
              (updErr p.1.id = none ∧
                statusOf ((l.foldl (BusyDayService.processAppointment updErr busy nd) st).db)
                    p.1.id
                  = some "rejected"))) := by
  intro l
  induction l with
  | nil => intro st _ _ p hp; exact Or.inl hp
  | cons b rest ih =>
    intro st hnodup hstatus p hp
    rw [List.foldl_cons] at hp ⊢
    have hb := hstatus b (List.mem_cons_self b rest)
    have hnodup2 : (rest.map Appointment.id).Nodup := by
      rw [List.map_cons, List.nodup_cons] at hnodup
      exact hnodup.2
    have hbid : b.id ∉ rest.map Appointment.id := by
      rw [List.map_cons, List.nodup_cons] at hnodup
      exact hnodup.1
    have hstep := processAppointment_spec updErr busy nd st b hb
    set st2 := BusyDayService.processAppointment updErr busy nd st b with hst2
    have hstatus2 : ∀ c ∈ rest, statusOf st2.db c.id = some c.appointmentStatus := by
      intro c hc
      have hcne : c.id ≠ b.id := by
        intro hcontra
        exact hbid (hcontra ▸ List.mem_map_of_mem _ hc)
      rw [hst2, processAppointment_statusOf_ne updErr busy nd st b c.id hcne]
      exact hstatus c (List.mem_cons_of_mem _ hc)
    rcases ih st2 hnodup2 hstatus2 p hp with hpin | ⟨hmem, hcase⟩
    · rcases hstep with ⟨hfeq, _⟩ | ⟨msg, hfeq, hcase2⟩
      · left
        rwa [hfeq] at hpin
      · rw [hfeq] at hpin
        rcases List.mem_append.mp hpin with hold | hnew
        · exact Or.inl hold
        · have hpb : p = (b, msg) := by simpa using hnew
          subst hpb
          right
          refine ⟨List.mem_cons_self b rest, ?_⟩
          have hframe := foldl_statusOf_frame updErr busy nd rest st2 b.id hbid
          rcases hcase2 with ⟨herr, hstat2⟩ | ⟨herr, hstat2⟩
          · exact Or.inl ⟨herr, by rw [hframe]; exact hstat2⟩
          · exact Or.inr ⟨herr, by rw [hframe]; exact hstat2⟩
    · exact Or.inr ⟨List.mem_cons_of_mem _ hmem, hcase⟩

/-! ## C3 — BlockDay accounting -/

/-- C3: for every BlockDay run, `totalMoved + totalFailed` equals the number
of non-deleted pending/approved appointments on the blocked date, and a
store error raised while moving one appointment is recorded as a failure
for that appointment while the loop continues over the rest (every affected
appointment still being accounted for in the totals). -/
theorem c3_blockday_accounting (updErr : Nat → Option String) (db : List Appointment)
    (busy : List Nat) (date : Nat) :
    ((BusyDayService.markDayAsBusy updErr db busy date).2.movedAppointments.length
        + (BusyDayService.markDayAsBusy updErr db busy date).2.failedMoves.length
      = (BusyDayService.activeOnDate db (dateOnly date)).length) ∧
    (∀ a ∈ BusyDayService.activeOnDate db (dateOnly date), ∀ m : String,
      updErr a.id = some m →
      (a, m) ∈ (BusyDayService.markDayAsBusy updErr db busy date).2.failedMoves) := by
  constructor
  · have h := foldl_count updErr (BusyDayData.markDayAsBusy busy date) (dateOnly date)
      (BusyDayService.activeOnDate db (dateOnly date))
      { db := db, movedAppointments := [], failedMoves := [] }
    simp only [BusyDayService.markDayAsBusy]
    simpa using h
  · intro a ha m hm
    simp only [BusyDayService.markDayAsBusy]
    exact foldl_err_mem updErr (BusyDayData.markDayAsBusy busy date) (dateOnly date)
      (BusyDayService.activeOnDate db (dateOnly date))
      { db := db, movedAppointments := [], failedMoves := [] } a m ha hm

/-- C3 witness: a store that throws on every update turns the single
affected appointment into a recorded failure. -/
theorem c3_blockday_accounting_witness :
    (approvedHolder, "Database connection lost")
      ∈ (BusyDayService.markDayAsBusy (fun _ => some "Database connection lost")
          [approvedHolder] [] (11 * msPerDay)).2.failedMoves :=
  (c3_blockday_accounting (fun _ => some "Database connection lost") [approvedHolder] []
      (11 * msPerDay)).2 approvedHolder (by decide) "Database connection lost" rfl

/-! ## C4 — status of appointments in the failed list -/

/-- C4 counterexample: when the store update throws while moving the only
affected appointment, that appointment lands in the failed list but its
stored status stays `approved` — it is **not** set to `rejected` as the
claim requires for every failed appointment. -/
theorem c4_counterexample_store_error_keeps_status :
    (BusyDayService.markDayAsBusy (fun _ => some "Database connection lost")
        [approvedHolder] [] (11 * msPerDay)).2.failedMoves
      = [(approvedHolder, "Database connection lost")] ∧
    (BusyDayService.markDayAsBusy (fun _ => some "Database connection lost")
        [approvedHolder] [] (11 * msPerDay)).2.db = [approvedHolder] ∧
    approvedHolder.appointmentStatus = "approved" := by
  refine ⟨?_, ?_, rfl⟩
  · rfl
  · rfl

/-- C4 (amended): with distinct stored ids, every appointment recorded in
the failed list of a BlockDay run has status `rejected` afterwards **when
its failure came from the no-available-date branch** (the status update
having succeeded); an appointment whose move failed because the store
update threw keeps its previous status. -/
theorem c4_blockday_failed_status (updErr : Nat → Option String) (db : List Appointment)
    (busy : List Nat) (date : Nat) (hnodup : (db.map Appointment.id).Nodup)
    (a : Appointment) (m : String)
    (hmem : (a, m) ∈ (BusyDayService.markDayAsBusy updErr db busy date).2.failedMoves) :
    (updErr a.id = none →
      statusOf (BusyDayService.markDayAsBusy updErr db busy date).2.db a.id
        = some "rejected") ∧
    (updErr a.id = some m →
      statusOf (BusyDayService.markDayAsBusy updErr db busy date).2.db a.id
        = some a.appointmentStatus) := by
  simp only [BusyDayService.markDayAsBusy] at hmem ⊢
  have hactive_sub : (BusyDayService.activeOnDate db (dateOnly date)).Sublist db :=
    List.Sublist.trans (List.filter_sublist _) (List.filter_sublist _)
  have hnodup2 : ((BusyDayService.activeOnDate db (dateOnly date)).map Appointment.id).Nodup :=
    List.Nodup.sublist (hactive_sub.map Appointment.id) hnodup
  have hstatus : ∀ b ∈ BusyDayService.activeOnDate db (dateOnly date),
      statusOf db b.id = some b.appointmentStatus := by
    intro b hb
    unfold statusOf
    rw [find_of_mem_nodup db b (hactive_sub.subset hb) hnodup]
    rfl
  have h := foldl_failed_spec updErr (BusyDayData.markDayAsBusy busy date) (dateOnly date)
    (BusyDayService.activeOnDate db (dateOnly date))
    { db := db, movedAppointments := [], failedMoves := [] } hnodup2 hstatus (a, m) hmem
  rcases h with hbad | ⟨_, hcase⟩
  · exact absurd hbad (by simp)
  · constructor
    · intro hnone
      rcases hcase with ⟨herr, _⟩ | ⟨_, hstat⟩
      · rw [hnone] at herr
        exact absurd herr (by simp)
      · exact hstat
    · intro hsome
      rcases hcase with ⟨_, hstat⟩ | ⟨herr, _⟩
      · exact hstat
      · rw [hsome] at herr
        exact absurd herr (by simp)

/-- C4 witness: the amended statement at a concrete run whose store update
throws — the failed appointment keeps its `approved` status. -/
theorem c4_blockday_failed_status_witness :
    statusOf (BusyDayService.markDayAsBusy (fun _ => some "Database connection lost")
        [approvedHolder] [] (11 * msPerDay)).2.db approvedHolder.id
      = some approvedHolder.appointmentStatus :=
  (c4_blockday_failed_status (fun _ => some "Database connection lost") [approvedHolder] []
      (11 * msPerDay) (by decide) approvedHolder "Database connection lost" (by decide)).2 rfl

end OSDS
